import Mathlib

/-!
Verification of the SecureShare consent-gated data-sharing backend.

The development shallowly embeds the repository's encryption services
(`backend/utils/encryptionService.js`, the partner backend's
`decryptionService`), the audit service (`backend/utils/auditService.js`),
and the consent / partner controllers
(`backend/controllers/consentController.js`,
`backend/controllers/partnerController.js`).

Cryptographic primitives (AES-256-GCM, RSA-OAEP, SHA-256) are modelled as
abstract scheme structures whose fields carry the functional-correctness
laws of the real primitives; the service-layer code that composes them is
translated statement by statement from the JavaScript source.  JavaScript
strings and byte buffers are both modelled as Lean `String`s, JSON
serialization of the one fixed payload shape is modelled by an explicit
injective encoder with a verified decoder, and `crypto.randomBytes` draws
are passed in as explicit arguments.
-/

namespace SecureShare

/-- Abstract model of Node's `aes-256-gcm` cipher: `enc`/`dec` are the CTR
keystream transform, `tag` is the GHASH authentication tag computed from
key, IV and ciphertext.  `dec_enc` is the functional correctness law of the
cipher. -/
structure GCMCipher where
  enc : String → String → String → String
  dec : String → String → String → String
  tag : String → String → String → String
  dec_enc : ∀ k iv p, dec k iv (enc k iv p) = p

/-- Abstract model of RSA-OAEP: a private key (a `Nat`) determines its
public key via `pubOf`, and decryption under the private key inverts
encryption under the matching public key. -/
structure RSACipher where
  pubOf : Nat → Nat
  enc : Nat → String → String
  dec : Nat → String → String
  dec_enc : ∀ priv m, dec priv (enc (pubOf priv) m) = m

/-- The record produced by `EncryptionService.encryptField`
(`backend/utils/encryptionService.js`): hex ciphertext, IV, GCM auth tag
and a SHA-256 search digest of the plaintext. -/
structure EncryptedField where
  encryptedValue : String
  iv : String
  authTag : String
  hash : String
deriving DecidableEq, Repr

/-- The `EncryptionService` instance state: the server's static symmetric
key, loaded once from `ENCRYPTION_KEY`. -/
structure EncryptionService where
  key : String
deriving DecidableEq, Repr

/-- The constructor of `EncryptionService`: fails fast unless the
configured key is exactly 32 bytes. -/
def mkEncryptionService (key : String) : Except String EncryptionService :=
  if key.length = 32 then .ok ⟨key⟩
  else .error "Encryption key must be 32 bytes (256 bits)"

/-- `EncryptionService.encryptField`: fresh random IV (passed explicitly),
AES-256-GCM encryption under the service key, auth tag, and a SHA-256
digest of the plaintext. -/
def encryptField (g : GCMCipher) (sha256 : String → String)
    (svc : EncryptionService) (iv : String) (plaintext : String) :
    EncryptedField :=
  let encrypted := g.enc svc.key iv plaintext
  { encryptedValue := encrypted
    iv := iv
    authTag := g.tag svc.key iv encrypted
    hash := sha256 plaintext }

/-- `EncryptionService.decryptField`: AES-256-GCM decryption under the
service key; any authentication failure is caught and rethrown as the
generic decryption error. -/
def decryptField (g : GCMCipher) (svc : EncryptionService)
    (ef : EncryptedField) : Except String String :=
  if g.tag svc.key ef.iv ef.encryptedValue = ef.authTag then
    .ok (g.dec svc.key ef.iv ef.encryptedValue)
  else
    .error "Failed to decrypt data"

/-- The hybrid envelope returned by
`EncryptionService.encryptWithPublicKey`. -/
structure HybridEnvelope where
  encryptedData : String
  iv : String
  authTag : String
  encryptedKey : String
  algorithm : String
deriving DecidableEq, Repr

/-- `EncryptionService.encryptWithPublicKey`: fresh AES-256 key and IV
(passed explicitly), AES-256-GCM encryption of the data, RSA-OAEP-SHA256
wrap of the AES key under the partner's public key. -/
def encryptWithPublicKey (g : GCMCipher) (rsa : RSACipher)
    (aesKey ivr : String) (data : String) (publicKey : Nat) :
    HybridEnvelope :=
  let encryptedData := g.enc aesKey ivr data
  { encryptedData := encryptedData
    iv := ivr
    authTag := g.tag aesKey ivr encryptedData
    encryptedKey := rsa.enc publicKey aesKey
    algorithm := "RSA-OAEP-SHA256+AES-256-GCM" }

/-- `DecryptionService.decryptHybridData` (partner backend): dispatch on
the `algorithm` tag, RSA-unwrap the AES key and AES-256-GCM-decrypt the
payload; unsupported algorithms and tag mismatches are errors. -/
def decryptHybridData (g : GCMCipher) (rsa : RSACipher)
    (privateKey : Nat) (e : HybridEnvelope) : Except String String :=
  if e.algorithm = "RSA-OAEP-SHA256+AES-256-GCM" then
    let aesKey := rsa.dec privateKey e.encryptedKey
    if g.tag aesKey e.iv e.encryptedData = e.authTag then
      .ok (g.dec aesKey e.iv e.encryptedData)
    else
      .error "Failed to decrypt data: auth tag mismatch"
  else if e.algorithm = "RSA-OAEP-SHA256" then
    .ok (rsa.dec privateKey e.encryptedData)
  else
    .error ("Unsupported encryption algorithm: " ++ e.algorithm)

/-- The inner payload of the secure-temporary-key protocol:
`{encryptedFields, tempKey, algorithm}` as built by
`encryptCustomerFieldsSecure`. -/
structure SecurePayload where
  encryptedFields : List (String × EncryptedField)
  tempKey : String
  algorithm : String
deriving DecidableEq, Repr

/-! Serialization of `SecurePayload` (the model of `JSON.stringify` /
`JSON.parse` restricted to this one payload shape): each component string
is length-prefixed in unary, and the chunks are concatenated. -/

/-- One length-prefixed chunk: `n` copies of `'1'`, a `':'`, then the
`n`-character content. -/
def encChunk (s : List Char) : List Char :=
  List.replicate s.length '1' ++ ':' :: s

/-- Concatenation of length-prefixed chunks. -/
def encChunks : List (List Char) → List Char
  | [] => []
  | s :: t => encChunk s ++ encChunks t

/-- Fuelled chunk decoder; the fuel bounds the number of chunks. -/
def decChunksAux : Nat → List Char → Option (List (List Char))
  | 0, cs => if cs = [] then some [] else none
  | fuel + 1, cs =>
    if cs = [] then some []
    else
      let n := (cs.takeWhile (· = '1')).length
      match cs.dropWhile (· = '1') with
      | ':' :: rest =>
        if n ≤ rest.length then
          match decChunksAux fuel (rest.drop n) with
          | some l => some (rest.take n :: l)
          | none => none
        else none
      | _ => none

/-- Chunk decoder (fuel = input length, which bounds the chunk count). -/
def decChunks (cs : List Char) : Option (List (List Char)) :=
  decChunksAux cs.length cs

theorem takeWhile_one_replicate (n : Nat) (s : List Char) :
    (List.replicate n '1' ++ ':' :: s).takeWhile (· = '1') =
      List.replicate n '1' := by
  induction n with
  | zero => simp [List.takeWhile]
  | succ m ih => simp [List.replicate_succ, List.takeWhile_cons, ih]

theorem dropWhile_one_replicate (n : Nat) (s : List Char) :
    (List.replicate n '1' ++ ':' :: s).dropWhile (· = '1') = ':' :: s := by
  induction n with
  | zero => simp [List.dropWhile]
  | succ m ih => simp [List.replicate_succ, List.dropWhile_cons, ih]

theorem length_encChunks_ge (l : List (List Char)) :
    l.length ≤ (encChunks l).length := by
  induction l with
  | nil => simp [encChunks]
  | cons h t ih =>
    simp only [encChunks, List.length_append, List.length_cons]
    have : 1 ≤ (encChunk h).length := by
      simp only [encChunk, List.length_append, List.length_replicate,
        List.length_cons]
      omega
    omega

theorem decChunksAux_enc (l : List (List Char)) :
    ∀ fuel, l.length ≤ fuel → decChunksAux fuel (encChunks l) = some l := by
  induction l with
  | nil => intro fuel _; cases fuel <;> simp [encChunks, decChunksAux]
  | cons h t ih =>
    intro fuel hf
    match fuel with
    | 0 => simp at hf
    | fuel + 1 =>
      have hcs : encChunks (h :: t) =
          List.replicate h.length '1' ++ ':' :: (h ++ encChunks t) := by
        simp [encChunks, encChunk]
      have hne : List.replicate h.length '1' ++ ':' :: (h ++ encChunks t) ≠
          ([] : List Char) := by
        simp
      rw [hcs]
      simp only [decChunksAux, hne, if_false, takeWhile_one_replicate,
        dropWhile_one_replicate, List.length_replicate]
      have hlen : h.length ≤ (h ++ encChunks t).length := by
        simp
      simp only [hlen, if_true]
      rw [List.take_left, List.drop_left]
      have ht : decChunksAux fuel (encChunks t) = some t :=
        ih fuel (by simpa using Nat.le_of_succ_le_succ hf)
      rw [ht]

/-- Round trip of the chunk serializer. -/
theorem decChunks_encChunks (l : List (List Char)) :
    decChunks (encChunks l) = some l :=
  decChunksAux_enc l (encChunks l).length (length_encChunks_ge l)

/-- Field-list part of the serialized payload: five chunks per field
(name, ciphertext, iv, authTag, hash). -/
def encFieldChunks : List (String × EncryptedField) → List (List Char)
  | [] => []
  | (n, ef) :: t =>
    n.data :: ef.encryptedValue.data :: ef.iv.data :: ef.authTag.data ::
      ef.hash.data :: encFieldChunks t

/-- Grouping decoder for the field list. -/
def decFieldChunks : List (List Char) → Option (List (String × EncryptedField))
  | [] => some []
  | n :: ev :: iv :: tg :: h :: t =>
    match decFieldChunks t with
    | some l => some ((String.mk n, ⟨String.mk ev, String.mk iv, String.mk tg, String.mk h⟩) :: l)
    | none => none
  | _ => none

theorem decFieldChunks_enc (l : List (String × EncryptedField)) :
    decFieldChunks (encFieldChunks l) = some l := by
  induction l with
  | nil => rfl
  | cons h t ih =>
    obtain ⟨n, ef⟩ := h
    simp [encFieldChunks, decFieldChunks, ih]

/-- Model of `JSON.stringify` on the secure payload shape. -/
def encodeSecurePayload (p : SecurePayload) : String :=
  String.mk (encChunks (p.algorithm.data :: p.tempKey.data ::
    encFieldChunks p.encryptedFields))

/-- Model of `JSON.parse` on the secure payload shape. -/
def decodeSecurePayload (s : String) : Option SecurePayload :=
  match decChunks s.data with
  | some (alg :: tk :: rest) =>
    match decFieldChunks rest with
    | some fs => some ⟨fs, String.mk tk, String.mk alg⟩
    | none => none
  | _ => none

theorem decodeSecurePayload_encode (p : SecurePayload) :
    decodeSecurePayload (encodeSecurePayload p) = some p := by
  obtain ⟨fs, tk, alg⟩ := p
  simp [encodeSecurePayload, decodeSecurePayload, decChunks_encChunks,
    decFieldChunks_enc]

/-- The random draws consumed by one `encryptCustomerFieldsSecure` call:
the per-request temporary AES key and IV, and the AES key and IV used by
the inner `encryptWithPublicKey` invocation. -/
structure SecureRand where
  tempKey : String
  tempIv : String
  outerKey : String
  outerIv : String
deriving DecidableEq, Repr

/-- The envelope returned by `encryptCustomerFieldsSecure`: the hybrid
envelope fields plus `encryptionType`. -/
structure SecureEnvelope where
  envelope : HybridEnvelope
  encryptionType : String
deriving DecidableEq, Repr

/-- `EncryptionService.encryptCustomerFieldsSecure`: encrypt every truthy
(non-empty) field value with the per-request temporary key and IV, bundle
the encrypted fields together with the base64 temporary key and the
algorithm tag, and seal the serialized bundle with `encryptWithPublicKey`
under the partner's RSA public key. -/
def encryptCustomerFieldsSecure (g : GCMCipher) (rsa : RSACipher)
    (sha256 : String → String) (r : SecureRand)
    (customerData : List (String × String)) (partnerPublicKey : Nat) :
    SecureEnvelope :=
  let encryptedFields := customerData.filterMap (fun nv =>
    if nv.2 = "" then none
    else
      let encrypted := g.enc r.tempKey r.tempIv nv.2
      some (nv.1,
        { encryptedValue := encrypted
          iv := r.tempIv
          authTag := g.tag r.tempKey r.tempIv encrypted
          hash := sha256 nv.2 }))
  let payload : SecurePayload :=
    ⟨encryptedFields, r.tempKey, "AES-256-GCM-TEMP-KEY"⟩
  let encryptedPayload :=
    encryptWithPublicKey g rsa r.outerKey r.outerIv
      (encodeSecurePayload payload) partnerPublicKey
  ⟨encryptedPayload, "secure-temporary-key"⟩

/-- `DecryptionService.decryptSecureData` (partner backend): unseal the
outer hybrid envelope, parse the payload, check the algorithm tag, then
decrypt each field with the recovered temporary key; a failing field is
replaced by a `DECRYPTION_FAILED` marker rather than aborting. -/
def decryptSecureData (g : GCMCipher) (rsa : RSACipher) (privateKey : Nat)
    (resp : SecureEnvelope) : Except String (List (String × String)) :=
  match decryptHybridData g rsa privateKey resp.envelope with
  | .error e => .error ("Failed to decrypt secure data: " ++ e)
  | .ok payloadStr =>
    match decodeSecurePayload payloadStr with
    | none => .error "Failed to decrypt secure data: JSON parse error"
    | some payload =>
      if payload.algorithm = "AES-256-GCM-TEMP-KEY" then
        .ok (payload.encryptedFields.map (fun nf =>
          (nf.1,
            if g.tag payload.tempKey nf.2.iv nf.2.encryptedValue =
                nf.2.authTag then
              g.dec payload.tempKey nf.2.iv nf.2.encryptedValue
            else "[DECRYPTION_FAILED]")))
      else
        .error ("Failed to decrypt secure data: Unsupported secure algorithm: "
          ++ payload.algorithm)

/-- The ephemeral key a partner recovers from a secure envelope (the
`tempKey` field of the unsealed payload). -/
def embeddedTempKey (g : GCMCipher) (rsa : RSACipher) (privateKey : Nat)
    (resp : SecureEnvelope) : Option String :=
  match decryptHybridData g rsa privateKey resp.envelope with
  | .error _ => none
  | .ok payloadStr => (decodeSecurePayload payloadStr).map SecurePayload.tempKey

/-! Concrete instances of the abstract primitives, used to evaluate the
service layer on explicit inputs. -/

/-- A concrete reversible cipher standing in for AES-256-GCM in concrete
evaluations: character-reversal keystream, tag = key ++ iv ++ ciphertext. -/
def toyGCM : GCMCipher where
  enc := fun _ _ p => String.mk p.data.reverse
  dec := fun _ _ c => String.mk c.data.reverse
  tag := fun k iv ct => k ++ iv ++ ct
  dec_enc := by intro k iv p; cases p; simp

/-- A concrete invertible asymmetric scheme standing in for RSA-OAEP in
concrete evaluations. -/
def toyRSA : RSACipher where
  pubOf := fun n => n
  enc := fun _ m => String.mk m.data.reverse
  dec := fun _ c => String.mk c.data.reverse
  dec_enc := by intro priv m; cases m; simp

/-- A concrete stand-in for SHA-256 in concrete evaluations. -/
def toySha : String → String := fun s => String.mk (List.replicate s.length 'h')

theorem string_append_left_cancel (a : String) :
    Function.Injective (fun s => a ++ s) := by
  intro x y h
  apply String.ext
  have hd := congrArg String.data h
  simpa using hd

/-- The hybrid protocol inverts: unsealing an `encryptWithPublicKey`
envelope under the matching private key recovers the data. -/
theorem decryptHybridData_encryptWithPublicKey (g : GCMCipher)
    (rsa : RSACipher) (priv : Nat) (aesKey ivr data : String) :
    decryptHybridData g rsa priv
      (encryptWithPublicKey g rsa aesKey ivr data (rsa.pubOf priv)) =
      .ok data := by
  simp [decryptHybridData, encryptWithPublicKey, rsa.dec_enc, g.dec_enc]

theorem roundtrip_fields (g : GCMCipher) (sha256 : String → String)
    (tk ti : String) :
    ∀ F : List (String × String), (∀ nv ∈ F, nv.2 ≠ "") →
    ((F.filterMap (fun nv =>
        if nv.2 = "" then none
        else some (nv.1,
          (⟨g.enc tk ti nv.2, ti, g.tag tk ti (g.enc tk ti nv.2),
            sha256 nv.2⟩ : EncryptedField)))).map (fun nf =>
      (nf.1,
        if g.tag tk nf.2.iv nf.2.encryptedValue = nf.2.authTag then
          g.dec tk nf.2.iv nf.2.encryptedValue
        else "[DECRYPTION_FAILED]"))) = F := by
  intro F hF
  induction F with
  | nil => rfl
  | cons h t ih =>
    obtain ⟨n, v⟩ := h
    have hv : v ≠ "" := hF (n, v) (List.mem_cons_self _ _)
    have ht : ∀ nv ∈ t, nv.2 ≠ "" := fun nv hm => hF nv (List.mem_cons_of_mem _ hm)
    simp [hv, ih ht, g.dec_enc]

/-- The temporary key a partner recovers from a fresh secure envelope is
exactly the random key drawn for that call. -/
theorem embeddedTempKey_encryptCustomerFieldsSecure (g : GCMCipher)
    (rsa : RSACipher) (sha256 : String → String) (r : SecureRand)
    (priv : Nat) (F : List (String × String)) :
    embeddedTempKey g rsa priv
      (encryptCustomerFieldsSecure g rsa sha256 r F (rsa.pubOf priv)) =
      some r.tempKey := by
  simp [embeddedTempKey, encryptCustomerFieldsSecure,
    decryptHybridData_encryptWithPublicKey, decodeSecurePayload_encode]

/-- C1 (counterexample): the claimed round-trip fails for a field map
containing an empty-string value — `encryptCustomerFieldsSecure` skips
falsy field values, so decryption yields a map without that field. -/
theorem C1_counterexample :
    decryptSecureData toyGCM toyRSA 0
        (encryptCustomerFieldsSecure toyGCM toyRSA toySha
          ⟨"tk", "ti", "ok", "oi"⟩ [("name", "")] (toyRSA.pubOf 0)) =
      .ok [] ∧
    decryptSecureData toyGCM toyRSA 0
        (encryptCustomerFieldsSecure toyGCM toyRSA toySha
          ⟨"tk", "ti", "ok", "oi"⟩ [("name", "")] (toyRSA.pubOf 0)) ≠
      .ok [("name", "")] := by
  have h1 : decryptSecureData toyGCM toyRSA 0
      (encryptCustomerFieldsSecure toyGCM toyRSA toySha
        ⟨"tk", "ti", "ok", "oi"⟩ [("name", "")] (toyRSA.pubOf 0)) =
      .ok [] := rfl
  refine ⟨h1, ?_⟩
  rw [h1]
  intro h
  injection h with h2
  exact absurd h2 (by decide)

/-- C1 (amended): for every field map whose values are all non-empty
(JavaScript-truthy) and every matching RSA key pair, decrypting the
envelope produced by `encryptCustomerFieldsSecure` with
`decryptSecureData` under the private key yields the field map exactly;
fields with empty values are silently omitted from the envelope, so maps
containing them do not round-trip.  The ephemeral AES key embedded in the
envelope equals the fresh random key drawn for the call, hence is distinct
across two calls whose random draws differ, identical input or not. -/
theorem C1_secure_envelope_roundtrip (g : GCMCipher) (rsa : RSACipher)
    (sha256 : String → String) (r r' : SecureRand) (priv : Nat)
    (F : List (String × String))
    (hF : ∀ nv ∈ F, nv.2 ≠ "") (hfresh : r.tempKey ≠ r'.tempKey) :
    decryptSecureData g rsa priv
        (encryptCustomerFieldsSecure g rsa sha256 r F (rsa.pubOf priv)) =
      .ok F ∧
    embeddedTempKey g rsa priv
        (encryptCustomerFieldsSecure g rsa sha256 r F (rsa.pubOf priv)) ≠
      embeddedTempKey g rsa priv
        (encryptCustomerFieldsSecure g rsa sha256 r' F (rsa.pubOf priv)) := by
  constructor
  · simp only [decryptSecureData, encryptCustomerFieldsSecure,
      decryptHybridData_encryptWithPublicKey, decodeSecurePayload_encode]
    simp [roundtrip_fields g sha256 r.tempKey r.tempIv F hF]
  · rw [embeddedTempKey_encryptCustomerFieldsSecure,
      embeddedTempKey_encryptCustomerFieldsSecure]
    intro h
    exact hfresh (Option.some.injEq _ _ ▸ h)

/-- C1 witness: the amended round-trip and key-freshness statement holds at
a concrete field map, key pair and pair of random draws. -/
theorem C1_secure_envelope_roundtrip_witness :
    decryptSecureData toyGCM toyRSA 3
        (encryptCustomerFieldsSecure toyGCM toyRSA toySha
          ⟨"tk1", "ti", "ok", "oi"⟩ [("name", "alice"), ("email", "a@b.c")]
          (toyRSA.pubOf 3)) =
      .ok [("name", "alice"), ("email", "a@b.c")] ∧
    embeddedTempKey toyGCM toyRSA 3
        (encryptCustomerFieldsSecure toyGCM toyRSA toySha
          ⟨"tk1", "ti", "ok", "oi"⟩ [("name", "alice"), ("email", "a@b.c")]
          (toyRSA.pubOf 3)) ≠
      embeddedTempKey toyGCM toyRSA 3
        (encryptCustomerFieldsSecure toyGCM toyRSA toySha
          ⟨"tk2", "ti", "ok", "oi"⟩ [("name", "alice"), ("email", "a@b.c")]
          (toyRSA.pubOf 3)) :=
  C1_secure_envelope_roundtrip toyGCM toyRSA toySha
    ⟨"tk1", "ti", "ok", "oi"⟩ ⟨"tk2", "ti", "ok", "oi"⟩ 3
    [("name", "alice"), ("email", "a@b.c")] (by decide) (by decide)

/-- C6: field-encryption round-trip — for every plaintext `P`, a service
constructed with a valid 32-byte key and a 16-byte IV satisfies
`decryptField (encryptField P) = P`. -/
theorem C6_field_roundtrip (g : GCMCipher) (sha256 : String → String)
    (key iv p : String) (svc : EncryptionService)
    (hkey : mkEncryptionService key = .ok svc) (hiv : iv.length = 16) :
    decryptField g svc (encryptField g sha256 svc iv p) = .ok p := by
  simp [decryptField, encryptField, g.dec_enc]

/-- C6 witness: the round-trip evaluated at a concrete 32-byte key,
16-byte IV and plaintext. -/
theorem C6_field_roundtrip_witness :
    decryptField toyGCM ⟨"abcdefghijklmnopqrstuvwxyz012345"⟩
        (encryptField toyGCM toySha ⟨"abcdefghijklmnopqrstuvwxyz012345"⟩
          "0123456789abcdef" "hello") =
      .ok "hello" :=
  C6_field_roundtrip toyGCM toySha "abcdefghijklmnopqrstuvwxyz012345"
    "0123456789abcdef" "hello" ⟨"abcdefghijklmnopqrstuvwxyz012345"⟩
    (by rfl) (by rfl)

/-- C7: tamper detection — any modification of the ciphertext (under an
injective authentication tag, the idealisation of GHASH) or of the auth
tag of an honestly produced `EncryptedField` makes `decryptField` fail
with the decryption error; altered plaintext is never returned. -/
theorem C7_tamper_detection (g : GCMCipher) (sha256 : String → String)
    (svc : EncryptionService) (iv p : String) (ef' : EncryptedField)
    (hinj : Function.Injective (g.tag svc.key iv))
    (hiv : ef'.iv = iv)
    (htamper :
      (ef'.encryptedValue ≠ (encryptField g sha256 svc iv p).encryptedValue ∧
        ef'.authTag = (encryptField g sha256 svc iv p).authTag) ∨
      (ef'.encryptedValue = (encryptField g sha256 svc iv p).encryptedValue ∧
        ef'.authTag ≠ (encryptField g sha256 svc iv p).authTag)) :
    decryptField g svc ef' = .error "Failed to decrypt data" := by
  simp only [encryptField] at htamper
  rw [decryptField, hiv, if_neg]
  rcases htamper with ⟨hev, htg⟩ | ⟨hev, htg⟩
  · intro h
    exact hev (hinj (h.trans htg))
  · intro h
    rw [hev] at h
    exact htg h.symm

/-- C7 witness: flipping the auth tag of a concrete encrypted field makes
decryption fail. -/
theorem C7_tamper_detection_witness :
    decryptField toyGCM ⟨"key32"⟩
        { encryptField toyGCM toySha ⟨"key32"⟩ "iv16" "secret" with
          authTag :=
            (encryptField toyGCM toySha ⟨"key32"⟩ "iv16" "secret").authTag
              ++ "x" } =
      .error "Failed to decrypt data" := by
  have h := C7_tamper_detection toyGCM toySha ⟨"key32"⟩ "iv16" "secret"
    { encryptField toyGCM toySha ⟨"key32"⟩ "iv16" "secret" with
      authTag :=
        (encryptField toyGCM toySha ⟨"key32"⟩ "iv16" "secret").authTag ++ "x" }
    (string_append_left_cancel _) rfl (Or.inr ⟨rfl, by decide⟩)
  exact h

/-! The audit chain (`backend/utils/auditService.js` and
`backend/models/auditLogModel.js`). -/

/-- A persisted audit log document (`auditLogSchema`), restricted to the
fields that `verifyLogIntegrity` reads. -/
structure AuditLogEntry where
  logId : String
  eventHash : String
  previousHash : String
  digitalSignature : String
  createdAt : Nat
deriving DecidableEq, Repr

/-- The event descriptor passed to `AuditService.logEvent`. -/
structure AuditEventInput where
  eventType : String
  actorType : String
  actorId : String
  consentId : Option String
  customerId : Option String
  partnerId : Option String
deriving DecidableEq, Repr

/-- The mock object `AuditService.logEvent` returns "to satisfy the API":
a fresh UUID, the event fields and a timestamp — and nothing else. -/
structure MockAuditResult where
  logId : Nat
  eventType : String
  actorType : String
  actorId : String
  timestamp : Nat
deriving DecidableEq, Repr

/-- `AuditService.logEvent` as implemented: it console-logs the event and
returns a mock result; the persisted `AuditLog` collection (the store) is
not touched, and no `eventHash`, `previousHash` or `digitalSignature` is
computed. -/
def logEvent (uuid now : Nat) (e : AuditEventInput)
    (store : List AuditLogEntry) : List AuditLogEntry × MockAuditResult :=
  (store, ⟨uuid, e.eventType, e.actorType, e.actorId, now⟩)

/-- The persisted store after a sequence of `logEvent` calls. -/
def runLogEvents (calls : List (Nat × Nat × AuditEventInput))
    (store : List AuditLogEntry) : List AuditLogEntry :=
  match calls with
  | [] => store
  | c :: t => runLogEvents t (logEvent c.1 c.2.1 c.2.2 store).1

/-- The hash-chain link relation between adjacent audit entries. -/
def chainLink (p c : AuditLogEntry) : Prop := c.previousHash = p.eventHash

instance : DecidableRel chainLink := fun p c =>
  inferInstanceAs (Decidable (c.previousHash = p.eventHash))

/-- The verification loop of `AuditService.verifyLogIntegrity`, starting
from index 1 with `prev` the entry at index 0: for each subsequent entry,
check the `previousHash` link, then that entry's signature. -/
def verifyChainFrom (v : String → String → Bool) :
    AuditLogEntry → List AuditLogEntry → Bool × String
  | _, [] => (true, "Log chain integrity verified")
  | prev, cur :: rest =>
    if cur.previousHash ≠ prev.eventHash then
      (false, "Chain broken between logs " ++ prev.logId ++ " and " ++
        cur.logId)
    else if v cur.eventHash cur.digitalSignature = false then
      (false, "Invalid signature for log " ++ cur.logId)
    else verifyChainFrom v cur rest

/-- `AuditService.verifyLogIntegrity` on the fetched, creation-ordered
entries: empty ranges are trivially valid, otherwise the loop above runs
with the first entry as the initial `prev`.  `v` is the signature
verifier (`signatureService.verifySignature` under the service's public
key). -/
def verifyLogIntegrity (v : String → String → Bool)
    (logs : List AuditLogEntry) : Bool × String :=
  match logs with
  | [] => (true, "No logs to verify")
  | first :: rest => verifyChainFrom v first rest

/-- C2 (code bug): `AuditService.logEvent` persists nothing — the audit
store is unchanged by any call and by any sequence of calls, and the
returned object carries only a UUID, the event fields and a timestamp,
with no `eventHash`, no `previousHash` and no `digitalSignature`,
contradicting the hash-chained contract that `verifyLogIntegrity`, the
`auditLogSchema` fields and the project README describe. -/
theorem C2_logEvent_no_chain (uuid now : Nat) (e : AuditEventInput)
    (store : List AuditLogEntry)
    (calls : List (Nat × Nat × AuditEventInput)) :
    (logEvent uuid now e store).1 = store ∧
    (logEvent uuid now e store).2 =
      ⟨uuid, e.eventType, e.actorType, e.actorId, now⟩ ∧
    runLogEvents calls store = store := by
  refine ⟨rfl, rfl, ?_⟩
  induction calls generalizing store with
  | nil => rfl
  | cons c t ih => exact ih _

theorem verifyChainFrom_valid_iff (v : String → String → Bool) :
    ∀ (rest : List AuditLogEntry) (prev : AuditLogEntry),
    (verifyChainFrom v prev rest).1 = true ↔
      (List.Chain' chainLink (prev :: rest) ∧
        ∀ e ∈ rest, v e.eventHash e.digitalSignature = true) := by
  intro rest
  induction rest with
  | nil => intro prev; simp [verifyChainFrom]
  | cons cur rest ih =>
    intro prev
    by_cases hlink : cur.previousHash = prev.eventHash
    · by_cases hsig : v cur.eventHash cur.digitalSignature = true
      · simp only [verifyChainFrom, hlink, ne_eq, not_true_eq_false,
          if_false, hsig, Bool.true_eq_false, if_false]
        rw [ih cur]
        constructor
        · rintro ⟨hc, hs⟩
          refine ⟨List.chain'_cons.mpr ⟨hlink, hc⟩, ?_⟩
          intro e he
          rcases List.mem_cons.mp he with h | h
          · rw [h]; exact hsig
          · exact hs e h
        · rintro ⟨hc, hs⟩
          exact ⟨(List.chain'_cons.mp hc).2,
            fun e he => hs e (List.mem_cons_of_mem _ he)⟩
      · simp only [verifyChainFrom, hlink, ne_eq, not_true_eq_false,
          if_false, Bool.not_eq_true] at hsig ⊢
        simp only [hsig, if_true]
        constructor
        · intro h; exact absurd h (by simp)
        · rintro ⟨_, hs⟩
          have := hs cur (List.mem_cons_self _ _)
          rw [this] at hsig
          simp at hsig
    · simp only [verifyChainFrom, ne_eq, hlink, not_false_eq_true, if_true]
      constructor
      · intro h; exact absurd h (by simp)
      · rintro ⟨hc, _⟩
        exact absurd (List.chain'_cons.mp hc).1 hlink

theorem verifyChainFrom_through (v : String → String → Bool)
    (a : AuditLogEntry) :
    ∀ (seg : List AuditLogEntry) (prev : AuditLogEntry)
      (rest : List AuditLogEntry),
    List.Chain' chainLink (prev :: (seg ++ [a])) →
    (∀ e ∈ seg ++ [a], v e.eventHash e.digitalSignature = true) →
    verifyChainFrom v prev ((seg ++ [a]) ++ rest) =
      verifyChainFrom v a rest := by
  intro seg
  induction seg with
  | nil =>
    intro prev rest hc hs
    have hlink : chainLink prev a := (List.chain'_cons.mp hc).1
    have hsa : v a.eventHash a.digitalSignature = true :=
      hs a (by simp)
    simp only [List.nil_append, List.cons_append, verifyChainFrom,
      hlink.symm]
    simp [verifyChainFrom, chainLink] at hlink ⊢
    simp [hlink, hsa]
  | cons s seg ih =>
    intro prev rest hc hs
    have hlink : chainLink prev s := (List.chain'_cons.mp hc).1
    have hss : v s.eventHash s.digitalSignature = true := hs s (by simp)
    have hc' : List.Chain' chainLink (s :: (seg ++ [a])) :=
      (List.chain'_cons.mp hc).2
    have hs' : ∀ e ∈ seg ++ [a], v e.eventHash e.digitalSignature = true :=
      fun e he => hs e (List.mem_cons_of_mem _ he)
    have hstep : verifyChainFrom v prev (((s :: seg) ++ [a]) ++ rest) =
        verifyChainFrom v s ((seg ++ [a]) ++ rest) := by
      simp only [List.cons_append, verifyChainFrom]
      simp [chainLink] at hlink
      simp [hlink, hss]
    rw [hstep, ih s rest hc' hs']

/-- C3 (counterexample): `verifyLogIntegrity` returns `valid = true` on a
range whose FIRST entry carries an invalid signature — the loop starts at
index 1 and never verifies the signature of the entry at index 0, so
"the digital signature of every entry in the range verifies" is not
necessary for a valid verdict. -/
theorem C3_counterexample :
    (verifyLogIntegrity (fun h s => s == h)
        [⟨"L0", "h0", "", "BAD", 0⟩, ⟨"L1", "h1", "h0", "h1", 1⟩]).1 =
      true ∧
    (fun (h s : String) => s == h) "h0" "BAD" = false ∧
    (⟨"L0", "h0", "", "BAD", 0⟩ : AuditLogEntry) ∈
      [(⟨"L0", "h0", "", "BAD", 0⟩ : AuditLogEntry),
        ⟨"L1", "h1", "h0", "h1", 1⟩] := by
  refine ⟨rfl, rfl, ?_⟩
  exact List.mem_cons_self _ _

/-- C3 (amended): `verifyLogIntegrity` over a creation-ordered range
returns `valid = true` iff every adjacent pair satisfies
`current.previousHash = previous.eventHash` and the signature of every
entry EXCEPT THE FIRST verifies (the first entry's signature is never
checked); the first failing pair or entry short-circuits with a message
identifying the break point, and an empty or single-entry range is
trivially valid. -/
theorem C3_chain_verification (v : String → String → Bool) :
    (∀ logs : List AuditLogEntry,
      (verifyLogIntegrity v logs).1 = true ↔
        (List.Chain' chainLink logs ∧
          ∀ e ∈ logs.tail, v e.eventHash e.digitalSignature = true)) ∧
    verifyLogIntegrity v [] = (true, "No logs to verify") ∧
    (∀ e, verifyLogIntegrity v [e] =
      (true, "Log chain integrity verified")) ∧
    (∀ (pre : List AuditLogEntry) (a b : AuditLogEntry)
        (post : List AuditLogEntry),
      List.Chain' chainLink (pre ++ [a]) →
      (∀ e ∈ (pre ++ [a]).tail, v e.eventHash e.digitalSignature = true) →
      b.previousHash ≠ a.eventHash →
      verifyLogIntegrity v (pre ++ a :: b :: post) =
        (false, "Chain broken between logs " ++ a.logId ++ " and " ++
          b.logId)) ∧
    (∀ (pre : List AuditLogEntry) (a b : AuditLogEntry)
        (post : List AuditLogEntry),
      List.Chain' chainLink (pre ++ [a]) →
      (∀ e ∈ (pre ++ [a]).tail, v e.eventHash e.digitalSignature = true) →
      b.previousHash = a.eventHash →
      v b.eventHash b.digitalSignature = false →
      verifyLogIntegrity v (pre ++ a :: b :: post) =
        (false, "Invalid signature for log " ++ b.logId)) := by
  refine ⟨?_, rfl, fun e => rfl, ?_, ?_⟩
  · intro logs
    cases logs with
    | nil => simp [verifyLogIntegrity]
    | cons first rest =>
      simpa [verifyLogIntegrity] using verifyChainFrom_valid_iff v rest first
  · intro pre a b post hc hs hb
    cases pre with
    | nil =>
      simp only [List.nil_append, verifyLogIntegrity, verifyChainFrom]
      simp [hb]
    | cons h t =>
      have hthrough : verifyChainFrom v h ((t ++ [a]) ++ (b :: post)) =
          verifyChainFrom v a (b :: post) := by
        refine verifyChainFrom_through v a t h (b :: post) ?_ ?_
        · simpa using hc
        · simpa using hs
      have hrw : (h :: t) ++ a :: b :: post = h :: ((t ++ [a]) ++ (b :: post)) := by
        simp
      rw [hrw]
      simp only [verifyLogIntegrity]
      rw [hthrough]
      simp [verifyChainFrom, hb]
  · intro pre a b post hc hs hb hsig
    cases pre with
    | nil =>
      simp only [List.nil_append, verifyLogIntegrity, verifyChainFrom]
      simp [hb, hsig, verifyChainFrom]
    | cons h t =>
      have hthrough : verifyChainFrom v h ((t ++ [a]) ++ (b :: post)) =
          verifyChainFrom v a (b :: post) := by
        refine verifyChainFrom_through v a t h (b :: post) ?_ ?_
        · simpa using hc
        · simpa using hs
      have hrw : (h :: t) ++ a :: b :: post = h :: ((t ++ [a]) ++ (b :: post)) := by
        simp
      rw [hrw]
      simp only [verifyLogIntegrity]
      rw [hthrough]
      simp [verifyChainFrom, hb, hsig]

/-- C3 witness: the amended statement applied at a concrete broken chain —
the break between the two named entries is reported. -/
theorem C3_chain_verification_witness :
    verifyLogIntegrity (fun h s => s == h)
        [⟨"A", "ha", "", "ha", 0⟩, ⟨"B", "hb", "WRONG", "hb", 1⟩] =
      (false, "Chain broken between logs A and B") := by
  have h := (C3_chain_verification (fun h s => s == h)).2.2.2.1
    [] ⟨"A", "ha", "", "ha", 0⟩ ⟨"B", "hb", "WRONG", "hb", 1⟩ []
    (by simp) (by simp) (by decide)
  simpa using h

/-! The consent data model (`backend/models/consentModel.js`) and the
consent controller (`backend/controllers/consentController.js`). -/

/-- The `status` enum of the consent schema. -/
inductive ConsentStatus
  | active
  | revoked
  | expired
  | pending
deriving DecidableEq, Repr

/-- A persisted consent document, restricted to the fields the controllers
read or write. -/
structure Consent where
  consentId : String
  customerId : String
  partnerId : String
  allowedDataFields : List String
  purpose : String
  retentionPeriod : Nat
  consentDuration : Nat
  status : ConsentStatus
  createdAt : Nat
  updatedAt : Nat
  expiresAt : Nat
deriving DecidableEq, Repr

/-- The authenticated request user (`req.user`): role and, for customer
users, the linked customer id. -/
structure Caller where
  role : String
  customerId : Option String
deriving DecidableEq, Repr

/-- A consent-controller response: success carrying the consent, or an
HTTP error status with its message. -/
inductive ConsentResponse
  | ok (consent : Consent)
  | err (status : Nat) (message : String)
deriving DecidableEq, Repr

/-- Mongo `findOneAndUpdate` / `save` on a collection: replace the first
matching document. -/
def updateFirst (p : α → Bool) (f : α → α) : List α → List α
  | [] => []
  | x :: xs => if p x then f x :: xs else x :: updateFirst p f xs

/-- The update document built by `updateConsent` applied to a consent:
provided fields only, `consentDuration` also refreshing `expiresAt` from
now, `retentionPeriod` also refreshing `expiresAt` from the consent's
`createdAt`, and `updatedAt` always set. -/
def applyConsentUpdate (now : Nat) (body_allowedDataFields : Option (List String))
    (body_purpose : Option String) (body_retentionPeriod : Option Nat)
    (body_consentDuration : Option Nat) (body_status : Option ConsentStatus)
    (c : Consent) : Consent :=
  let c1 := match body_allowedDataFields with
    | some a => { c with allowedDataFields := a }
    | none => c
  let c2 := match body_purpose with
    | some s => { c1 with purpose := s }
    | none => c1
  let c3 := match body_status with
    | some s => { c2 with status := s }
    | none => c2
  let c4 := match body_consentDuration with
    | some d => { c3 with consentDuration := d, expiresAt := now + d }
    | none => c3
  let c5 := match body_retentionPeriod with
    | some rp =>
      { c4 with
        retentionPeriod := rp
        expiresAt := c.createdAt + rp * 86400000 }
    | none => c4
  { c5 with updatedAt := now }

/-- `updateConsent` (`PUT /consents/:consentId`): validate the duration
floor, apply `findOneAndUpdate` with the assembled update document, and
only THEN check the caller's permission — a 403 is returned after the
update has already been persisted. -/
def updateConsent (minDuration now : Nat) (caller : Caller)
    (consentId : String) (body_allowedDataFields : Option (List String))
    (body_purpose : Option String) (body_retentionPeriod : Option Nat)
    (body_consentDuration : Option Nat) (body_status : Option ConsentStatus)
    (consents : List Consent) : List Consent × ConsentResponse :=
  let durBad : Bool := match body_consentDuration with
    | some d => decide (d < minDuration)
    | none => false
  if durBad then
    (consents, .err 400 ("Consent duration must be at least " ++
      Nat.repr (minDuration / 3600000) ++ " hour(s)"))
  else
    match consents.find? (fun c => c.consentId == consentId) with
    | none => (consents, .err 404 "No consent found with that ID")
    | some c =>
      let app := applyConsentUpdate now body_allowedDataFields body_purpose
        body_retentionPeriod body_consentDuration body_status
      let consents' :=
        updateFirst (fun x => x.consentId == consentId) app consents
      let updated := app c
      if caller.role ≠ "admin" ∧
          ¬(caller.role = "customer" ∧
            caller.customerId = some updated.customerId) then
        (consents', .err 403 "You do not have permission to update this consent")
      else
        (consents', .ok updated)

/-- `revokeConsent` (`POST /consents/:consentId/revoke`): find the consent,
check the caller's permission, then unconditionally set the status to
`revoked` and save — there is no check of the consent's current status. -/
def revokeConsent (now : Nat) (caller : Caller) (consentId : String)
    (consents : List Consent) : List Consent × ConsentResponse :=
  match consents.find? (fun c => c.consentId == consentId) with
  | none => (consents, .err 404 "No consent found with that ID")
  | some consent =>
    if caller.role ≠ "admin" ∧
        ¬(caller.role = "customer" ∧
          caller.customerId = some consent.customerId) then
      (consents, .err 403 "You do not have permission to revoke this consent")
    else
      let updated := { consent with status := .revoked, updatedAt := now }
      (updateFirst (fun c => c.consentId == consentId) (fun _ => updated)
        consents, .ok updated)

theorem updateFirst_ne {α : Type} (p : α → Bool) (f : α → α) :
    ∀ (l : List α) (a : α), l.find? p = some a → f a ≠ a →
    updateFirst p f l ≠ l := by
  intro l
  induction l with
  | nil => intro a h; simp at h
  | cons x xs ih =>
    intro a hfind hfa
    by_cases hx : p x
    · rw [List.find?_cons_of_pos _ hx] at hfind
      have hax : a = x := by injection hfind with h; exact h.symm
      simp only [updateFirst, hx, if_true]
      intro h
      injection h with h1 _
      exact hfa (hax ▸ h1)
    · rw [List.find?_cons_of_neg _ hx] at hfind
      simp only [updateFirst, hx, if_false]
      intro h
      injection h with _ h2
      exact ih a hfind hfa h2

theorem applyConsentUpdate_customerId (now : Nat)
    (ba : Option (List String)) (bp : Option String) (brp bd : Option Nat)
    (bs : Option ConsentStatus) (c : Consent) :
    (applyConsentUpdate now ba bp brp bd bs c).customerId = c.customerId := by
  cases ba <;> cases bp <;> cases brp <;> cases bd <;> cases bs <;> rfl

theorem applyConsentUpdate_purpose (now : Nat)
    (ba : Option (List String)) (p : String) (brp bd : Option Nat)
    (bs : Option ConsentStatus) (c : Consent) :
    (applyConsentUpdate now ba (some p) brp bd bs c).purpose = p := by
  cases ba <;> cases brp <;> cases bd <;> cases bs <;> rfl

theorem applyConsentUpdate_status (now : Nat)
    (ba : Option (List String)) (bp : Option String) (brp bd : Option Nat)
    (s : ConsentStatus) (c : Consent) :
    (applyConsentUpdate now ba bp brp bd (some s) c).status = s := by
  cases ba <;> cases bp <;> cases brp <;> cases bd <;> rfl

/-- C10: `updateConsent` runs `findOneAndUpdate` before the caller
permission check, so a caller who is neither admin nor the owning customer
receives the 403 error while the consent has already been persistently
modified — the state is not unchanged on error. -/
theorem C10_update_applied_before_permission (minDuration now : Nat)
    (caller : Caller) (cid p : String) (ba : Option (List String))
    (brp bd : Option Nat) (bs : Option ConsentStatus)
    (consents : List Consent) (c : Consent)
    (hfind : consents.find? (fun x => x.consentId == cid) = some c)
    (hdur : ∀ d, bd = some d → minDuration ≤ d)
    (hrole : caller.role ≠ "admin")
    (hown : ¬(caller.role = "customer" ∧
      caller.customerId = some c.customerId))
    (hpurpose : p ≠ c.purpose) :
    (updateConsent minDuration now caller cid ba (some p) brp bd bs
        consents).2 =
      .err 403 "You do not have permission to update this consent" ∧
    (updateConsent minDuration now caller cid ba (some p) brp bd bs
        consents).1 =
      updateFirst (fun x => x.consentId == cid)
        (applyConsentUpdate now ba (some p) brp bd bs) consents ∧
    (updateConsent minDuration now caller cid ba (some p) brp bd bs
        consents).1 ≠ consents := by
  have hcond : caller.role ≠ "admin" ∧
      ¬(caller.role = "customer" ∧ caller.customerId =
        some ((applyConsentUpdate now ba (some p) brp bd bs c).customerId)) := by
    refine ⟨hrole, fun hc => hown ⟨hc.1, ?_⟩⟩
    rw [hc.2, applyConsentUpdate_customerId]
  have happ : applyConsentUpdate now ba (some p) brp bd bs c ≠ c := by
    intro h
    exact hpurpose (by rw [← h, applyConsentUpdate_purpose])
  have hmain : updateConsent minDuration now caller cid ba (some p) brp bd bs
      consents =
      (updateFirst (fun x => x.consentId == cid)
        (applyConsentUpdate now ba (some p) brp bd bs) consents,
       .err 403 "You do not have permission to update this consent") := by
    simp only [updateConsent]
    split
    next hbad =>
      exfalso
      cases hbd : bd with
      | none => rw [hbd] at hbad; simp at hbad
      | some d =>
        rw [hbd] at hbad
        simp only [decide_eq_true_eq] at hbad
        exact absurd hbad (Nat.not_lt.mpr (hdur d hbd))
    next =>
      rw [hfind]
      show (if caller.role ≠ "admin" ∧
          ¬(caller.role = "customer" ∧ caller.customerId =
            some ((applyConsentUpdate now ba (some p) brp bd bs c).customerId))
        then (updateFirst (fun x => x.consentId == cid)
            (applyConsentUpdate now ba (some p) brp bd bs) consents,
          ConsentResponse.err 403
            "You do not have permission to update this consent")
        else (updateFirst (fun x => x.consentId == cid)
            (applyConsentUpdate now ba (some p) brp bd bs) consents,
          ConsentResponse.ok (applyConsentUpdate now ba (some p) brp bd bs c)))
        = _
      rw [if_pos hcond]
  refine ⟨by rw [hmain], by rw [hmain], ?_⟩
  rw [hmain]
  exact updateFirst_ne _ _ consents c hfind happ

/-- C10 witness: the pre-check update observed at a concrete store — a
foreign customer's update returns 403 yet the stored purpose has changed. -/
theorem C10_update_applied_before_permission_witness :
    (updateConsent 3600000 7 ⟨"customer", some "custB"⟩ "cid" none
        (some "evil") none none none
        [⟨"cid", "custA", "p1", ["phone"], "mkt", 30, 3600000,
          ConsentStatus.active, 0, 0, 99⟩]).2 =
      .err 403 "You do not have permission to update this consent" ∧
    (updateConsent 3600000 7 ⟨"customer", some "custB"⟩ "cid" none
        (some "evil") none none none
        [⟨"cid", "custA", "p1", ["phone"], "mkt", 30, 3600000,
          ConsentStatus.active, 0, 0, 99⟩]).1 ≠
      [⟨"cid", "custA", "p1", ["phone"], "mkt", 30, 3600000,
        ConsentStatus.active, 0, 0, 99⟩] := by
  have h := C10_update_applied_before_permission 3600000 7
    ⟨"customer", some "custB"⟩ "cid" "evil" none none none none
    [⟨"cid", "custA", "p1", ["phone"], "mkt", 30, 3600000,
      ConsentStatus.active, 0, 0, 99⟩]
    ⟨"cid", "custA", "p1", ["phone"], "mkt", 30, 3600000,
      ConsentStatus.active, 0, 0, 99⟩
    (by rfl) (by intro d hd; cases hd) (by decide) (by decide) (by decide)
  exact ⟨h.1, h.2.2⟩

/-- C8 (counterexample): the consent state machine has no terminal-state
protection — revoking an already-revoked consent is silently accepted with
a success response (no explicit state check rejects it), and
`updateConsent` sets a revoked consent's status back to `active`. -/
theorem C8_counterexample :
    (revokeConsent 5 ⟨"admin", none⟩ "cid"
        [⟨"cid", "custA", "p1", ["phone"], "mkt", 30, 3600000,
          ConsentStatus.revoked, 0, 0, 99⟩]).2 =
      .ok ⟨"cid", "custA", "p1", ["phone"], "mkt", 30, 3600000,
        ConsentStatus.revoked, 0, 5, 99⟩ ∧
    (∀ st msg, (revokeConsent 5 ⟨"admin", none⟩ "cid"
        [⟨"cid", "custA", "p1", ["phone"], "mkt", 30, 3600000,
          ConsentStatus.revoked, 0, 0, 99⟩]).2 ≠ .err st msg) ∧
    (updateConsent 3600000 9 ⟨"admin", none⟩ "cid" none none none none
        (some ConsentStatus.active)
        [⟨"cid", "custA", "p1", ["phone"], "mkt", 30, 3600000,
          ConsentStatus.revoked, 0, 0, 99⟩]).1 =
      [⟨"cid", "custA", "p1", ["phone"], "mkt", 30, 3600000,
        ConsentStatus.active, 0, 9, 99⟩] := by
  refine ⟨rfl, ?_, rfl⟩
  intro st msg h
  rw [(rfl : (revokeConsent 5 ⟨"admin", none⟩ "cid"
      [⟨"cid", "custA", "p1", ["phone"], "mkt", 30, 3600000,
        ConsentStatus.revoked, 0, 0, 99⟩]).2 =
    ConsentResponse.ok ⟨"cid", "custA", "p1", ["phone"], "mkt", 30, 3600000,
      ConsentStatus.revoked, 0, 5, 99⟩)] at h
  cases h

/-- C8 (amended): there is no transition guard on terminal consent states —
for any found consent and permitted caller, `revokeConsent` succeeds and
sets status `revoked` regardless of the prior status (re-revoking is
silently accepted, there is no explicit state check), and `updateConsent`
stores any provided status unconditionally, so a revoked or expired
consent can be set back to `active`. -/
theorem C8_no_terminal_state_protection (minDuration now : Nat)
    (caller : Caller) (cid : String) (ba : Option (List String))
    (bp : Option String) (brp bd : Option Nat) (s : ConsentStatus)
    (consents : List Consent) (consent : Consent)
    (hfind : consents.find? (fun c => c.consentId == cid) = some consent)
    (hperm : caller.role = "admin" ∨
      (caller.role = "customer" ∧
        caller.customerId = some consent.customerId))
    (hdur : ∀ d, bd = some d → minDuration ≤ d) :
    revokeConsent now caller cid consents =
      (updateFirst (fun c => c.consentId == cid)
        (fun _ => { consent with status := .revoked, updatedAt := now })
        consents,
       .ok { consent with status := .revoked, updatedAt := now }) ∧
    updateConsent minDuration now caller cid ba bp brp bd (some s)
        consents =
      (updateFirst (fun x => x.consentId == cid)
        (applyConsentUpdate now ba bp brp bd (some s)) consents,
       .ok (applyConsentUpdate now ba bp brp bd (some s) consent)) ∧
    (applyConsentUpdate now ba bp brp bd (some s) consent).status = s := by
  have hncond : ¬(caller.role ≠ "admin" ∧
      ¬(caller.role = "customer" ∧
        caller.customerId = some consent.customerId)) := by
    rintro ⟨h1, h2⟩
    rcases hperm with ha | hb
    · exact h1 ha
    · exact h2 hb
  have hncond' : ¬(caller.role ≠ "admin" ∧
      ¬(caller.role = "customer" ∧ caller.customerId =
        some ((applyConsentUpdate now ba bp brp bd (some s)
          consent).customerId))) := by
    rw [applyConsentUpdate_customerId]
    exact hncond
  refine ⟨?_, ?_, applyConsentUpdate_status now ba bp brp bd s consent⟩
  · simp only [revokeConsent]
    rw [hfind]
    show (if caller.role ≠ "admin" ∧
        ¬(caller.role = "customer" ∧
          caller.customerId = some consent.customerId)
      then (consents, ConsentResponse.err 403
        "You do not have permission to revoke this consent")
      else (updateFirst (fun c => c.consentId == cid)
          (fun _ => { consent with status := .revoked, updatedAt := now })
          consents,
        ConsentResponse.ok
          { consent with status := .revoked, updatedAt := now })) = _
    rw [if_neg hncond]
  · simp only [updateConsent]
    split
    next hbad =>
      exfalso
      cases hbd : bd with
      | none => rw [hbd] at hbad; simp at hbad
      | some d =>
        rw [hbd] at hbad
        simp only [decide_eq_true_eq] at hbad
        exact absurd hbad (Nat.not_lt.mpr (hdur d hbd))
    next =>
      rw [hfind]
      show (if caller.role ≠ "admin" ∧
          ¬(caller.role = "customer" ∧ caller.customerId =
            some ((applyConsentUpdate now ba bp brp bd (some s)
              consent).customerId))
        then (updateFirst (fun x => x.consentId == cid)
            (applyConsentUpdate now ba bp brp bd (some s)) consents,
          ConsentResponse.err 403
            "You do not have permission to update this consent")
        else (updateFirst (fun x => x.consentId == cid)
            (applyConsentUpdate now ba bp brp bd (some s)) consents,
          ConsentResponse.ok
            (applyConsentUpdate now ba bp brp bd (some s) consent)))
        = _
      rw [if_neg hncond']

/-- C8 witness: the amended statement applied at a concrete revoked
consent — the admin re-revoke succeeds and the status update to `active`
is stored. -/
theorem C8_no_terminal_state_protection_witness :
    (revokeConsent 5 ⟨"admin", none⟩ "cid2"
        [⟨"cid2", "custA", "p1", ["phone"], "mkt", 30, 3600000,
          ConsentStatus.revoked, 0, 0, 99⟩]).2 =
      .ok ⟨"cid2", "custA", "p1", ["phone"], "mkt", 30, 3600000,
        ConsentStatus.revoked, 0, 5, 99⟩ ∧
    (applyConsentUpdate 5 none none none none (some ConsentStatus.active)
        ⟨"cid2", "custA", "p1", ["phone"], "mkt", 30, 3600000,
          ConsentStatus.revoked, 0, 0, 99⟩).status =
      ConsentStatus.active := by
  have h := C8_no_terminal_state_protection 3600000 5 ⟨"admin", none⟩
    "cid2" none none none none ConsentStatus.active
    [⟨"cid2", "custA", "p1", ["phone"], "mkt", 30, 3600000,
      ConsentStatus.revoked, 0, 0, 99⟩]
    ⟨"cid2", "custA", "p1", ["phone"], "mkt", 30, 3600000,
      ConsentStatus.revoked, 0, 0, 99⟩
    (by rfl) (Or.inl rfl) (by intro d hd; cases hd)
  exact ⟨by rw [h.1], h.2.2⟩

/-! The partner controller (`backend/controllers/partnerController.js`):
the `partnerDataRequest` disclosure pipeline. -/

/-- An approved contract snapshot (`partnerSchema.contractData`). -/
structure ContractData where
  allowedDataFields : List String
  purpose : String
  retentionPeriod : Nat
  legalBasis : String
  contractText : String
  contractId : String
  version : Nat
deriving DecidableEq, Repr

/-- A partner document, restricted to the fields `partnerDataRequest`
reads. -/
structure Partner where
  partnerId : String
  status : String
  approvedContract : Bool
  contractData : Option ContractData
  publicKey : Option Nat
  callbackUrl : Option String
deriving DecidableEq, Repr

/-- A stored customer field value: either a plain string or the JSON
serialization of an `EncryptedField` (the shape the controller detects by
its `"encryptedValue"`/`"iv"`/`"authTag"` markers). -/
inductive StoredVal
  | plain (s : String)
  | encField (ef : EncryptedField)
deriving DecidableEq, Repr

/-- A customer document: its `_id` and its defined properties. -/
structure Customer where
  id : String
  fields : List (String × StoredVal)
deriving DecidableEq, Repr

/-- A persisted `DataRequest` record. -/
structure DataRequest where
  requestId : Nat
  partnerId : String
  customerId : String
  consentId : String
  requestedFields : List String
  status : String
  requestedAt : Nat
deriving DecidableEq, Repr

/-- Property access `customer[field]` (`undefined` = `none`). -/
def lookupField (c : Customer) (f : String) : Option StoredVal :=
  (c.fields.find? (fun kv => kv.1 == f)).map (·.2)

/-- The controller's map from common field names to their encrypted
counterparts in the customer model. -/
def fieldMap : String → Option String
  | "phone" => some "encryptedPhone"
  | "email" => some "encryptedEmail"
  | "pan" => some "encryptedPan"
  | "address" => some "encryptedAddress"
  | "name" => some "encryptedName"
  | _ => none

/-- The `responseData` accumulation loop: for each requested field, take
the direct customer property, else the mapped encrypted property, else
skip. -/
def buildResponseData (c : Customer) (requestedFields : List String) :
    List (String × StoredVal) :=
  requestedFields.filterMap (fun f =>
    match lookupField c f with
    | some v => some (f, v)
    | none =>
      match fieldMap f with
      | some mf =>
        match lookupField c mf with
        | some v => some (f, v)
        | none => none
      | none => none)

/-- The fabricated placeholder data the controller substitutes when no
requested field matched anything. -/
def testData : List (String × StoredVal) :=
  [("testData", .plain "This is test data to demonstrate encryption"),
   ("name", .plain "Test Customer"),
   ("email", .plain "test@example.com"),
   ("phone", .plain "+1234567890")]

/-- `responseData` after the empty-response fallback. -/
def responseDataFor (c : Customer) (requestedFields : List String) :
    List (String × StoredVal) :=
  let d := buildResponseData c requestedFields
  if d = [] then testData else d

/-- The JSON string form of a stored encrypted field (kept as the value
when its decryption fails). -/
def efString (ef : EncryptedField) : String :=
  String.mk (encChunks [ef.encryptedValue.data, ef.iv.data,
    ef.authTag.data, ef.hash.data])

/-- The `fullyDecryptedData` loop: values that look like serialized
encrypted fields are decrypted with the bank's field key; plain values
pass through; a failing decryption keeps the original value. -/
def fullyDecrypt (g : GCMCipher) (svc : EncryptionService)
    (d : List (String × StoredVal)) : List (String × String) :=
  d.map (fun kv =>
    (kv.1,
      match kv.2 with
      | .plain s => s
      | .encField ef =>
        match decryptField g svc ef with
        | .ok s => s
        | .error _ => efString ef))

/-- A `partnerDataRequest` response: an HTTP error, or a success carrying
either the secure envelope (`encrypted: true`) or the raw response data
(`encrypted: false`). -/
inductive PdrResponse
  | errorResp (status : Nat) (message : String)
  | successEncrypted (message : String) (data : SecureEnvelope)
  | successPlain (message : String) (data : List (String × StoredVal))
deriving DecidableEq, Repr

/-- The stages of `partnerDataRequest` after the consent and field checks
have passed: optional request-signature verification, customer fetch,
`DataRequest` creation, response-data assembly, decryption of stored
ciphertext and re-encryption for the partner. -/
def pdrSigFails (verifyReqSig : Nat → String → Bool) (pk : Option Nat)
    (sg : Option String) : Bool :=
  match pk, sg with
  | some k, some s => !(verifyReqSig k s)
  | _, _ => false

/-- The response message of a successful disclosure, depending on whether
an automatic push to the partner's callback URL happened. -/
def pdrMessage (partner : Partner) : String :=
  if partner.callbackUrl.isSome then
    "Data sent via API response and pushed to partner endpoint"
  else "Data sent via API response only"

/-- The disclosure stage after all checks passed: create the `DataRequest`
record, assemble `responseData`, decrypt stored ciphertext, and re-encrypt
for the partner's key when one is on file. -/
def pdrRespond (g : GCMCipher) (rsa : RSACipher)
    (sha256 : String → String) (svc : EncryptionService) (r : SecureRand)
    (uuid now : Nat) (partner : Partner) (consentId : String)
    (requestedFields : List String) (consents : List Consent)
    (customers : List Customer) (dataRequests : List DataRequest)
    (consent : Consent) : List Consent × List DataRequest × PdrResponse :=
  match customers.find? (fun cu => cu.id == consent.customerId) with
  | none => (consents, dataRequests, .errorResp 404 "Customer not found")
  | some customer =>
    let dataRequests' := dataRequests ++
      [⟨uuid, partner.partnerId, consent.customerId, consentId,
        requestedFields, "approved", now⟩]
    let responseData := responseDataFor customer requestedFields
    let fullyDecryptedData := fullyDecrypt g svc responseData
    match partner.publicKey with
    | some pk =>
      (consents, dataRequests',
        .successEncrypted (pdrMessage partner)
          (encryptCustomerFieldsSecure g rsa sha256 r fullyDecryptedData
            pk))
    | none =>
      (consents, dataRequests', .successPlain (pdrMessage partner)
        responseData)

def pdrAfterFields (g : GCMCipher) (rsa : RSACipher)
    (sha256 : String → String) (svc : EncryptionService) (r : SecureRand)
    (verifyReqSig : Nat → String → Bool) (uuid now : Nat)
    (partner : Partner) (consentId : String)
    (requestedFields : List String) (signature : Option String)
    (consents : List Consent) (customers : List Customer)
    (dataRequests : List DataRequest) (consent : Consent) :
    List Consent × List DataRequest × PdrResponse :=
  if pdrSigFails verifyReqSig partner.publicKey signature then
    (consents, dataRequests, .errorResp 400 "Invalid signature")
  else
    pdrRespond g rsa sha256 svc r uuid now partner consentId
      requestedFields consents customers dataRequests consent

/-- `partnerDataRequest` (`POST /partners/data-request`): partner status
and contract checks, fetch of an ACTIVE consent for this partner, lazy
expiry detection (persisting the `expired` status before failing), the
allowed-fields check listing the offending fields, then the disclosure
stages of `pdrAfterFields`. -/
def partnerDataRequest (g : GCMCipher) (rsa : RSACipher)
    (sha256 : String → String) (svc : EncryptionService) (r : SecureRand)
    (verifyReqSig : Nat → String → Bool) (uuid now : Nat)
    (partner : Partner) (consentId : String)
    (requestedFields : List String) (signature : Option String)
    (consents : List Consent) (customers : List Customer)
    (dataRequests : List DataRequest) :
    List Consent × List DataRequest × PdrResponse :=
  if ¬(partner.status = "active" ∧ partner.approvedContract = true ∧
      partner.contractData.isSome = true) then
    (consents, dataRequests,
      .errorResp 403 "Partner is not active or does not have an approved contract")
  else
    match consents.find? (fun c => c.consentId == consentId &&
        c.partnerId == partner.partnerId &&
        c.status == ConsentStatus.active) with
    | none => (consents, dataRequests, .errorResp 404 "No active consent found")
    | some consent =>
      if now > consent.expiresAt then
        (updateFirst (fun c => c.consentId == consent.consentId)
          (fun c => { c with status := .expired, updatedAt := now })
          consents,
         dataRequests, .errorResp 403 "Consent expired")
      else
        let invalidFields := requestedFields.filter
          (fun f => !(consent.allowedDataFields.contains f))
        if invalidFields ≠ [] then
          (consents, dataRequests,
            .errorResp 403 ("Fields not allowed: " ++
              String.intercalate ", " invalidFields))
        else
          pdrAfterFields g rsa sha256 svc r verifyReqSig uuid now partner
            consentId requestedFields signature consents customers
            dataRequests consent

theorem pdrAfterFields_no_403 (g : GCMCipher) (rsa : RSACipher)
    (sha256 : String → String) (svc : EncryptionService) (r : SecureRand)
    (verifyReqSig : Nat → String → Bool) (uuid now : Nat)
    (partner : Partner) (consentId : String)
    (requestedFields : List String) (signature : Option String)
    (consents : List Consent) (customers : List Customer)
    (dataRequests : List DataRequest) (consent : Consent) :
    (pdrAfterFields g rsa sha256 svc r verifyReqSig uuid now partner
        consentId requestedFields signature consents customers dataRequests
        consent).1 = consents ∧
    ∀ m, (pdrAfterFields g rsa sha256 svc r verifyReqSig uuid now partner
        consentId requestedFields signature consents customers dataRequests
        consent).2.2 ≠ .errorResp 403 m := by
  have hresp : (pdrRespond g rsa sha256 svc r uuid now partner consentId
      requestedFields consents customers dataRequests consent).1 =
        consents ∧
      ∀ m, (pdrRespond g rsa sha256 svc r uuid now partner consentId
        requestedFields consents customers dataRequests consent).2.2 ≠
        .errorResp 403 m := by
    unfold pdrRespond
    split
    · exact ⟨rfl, by intro m h; injection h with h1; exact absurd h1 (by decide)⟩
    · split
      · exact ⟨rfl, by intro m h; cases h⟩
      · exact ⟨rfl, by intro m h; cases h⟩
  unfold pdrAfterFields
  split
  · exact ⟨rfl, by intro m h; injection h with h1; exact absurd h1 (by decide)⟩
  · exact hresp

theorem partnerDataRequest_fieldsErr (g : GCMCipher) (rsa : RSACipher)
    (sha256 : String → String) (svc : EncryptionService) (r : SecureRand)
    (verifyReqSig : Nat → String → Bool) (uuid now : Nat)
    (partner : Partner) (consentId : String)
    (requestedFields : List String) (signature : Option String)
    (consents : List Consent) (customers : List Customer)
    (dataRequests : List DataRequest) (consent : Consent)
    (hp : partner.status = "active" ∧ partner.approvedContract = true ∧
      partner.contractData.isSome = true)
    (hfind : consents.find? (fun c => c.consentId == consentId &&
      c.partnerId == partner.partnerId &&
      c.status == ConsentStatus.active) = some consent)
    (hexp : ¬ now > consent.expiresAt)
    (hinv : requestedFields.filter
      (fun f => !(consent.allowedDataFields.contains f)) ≠ []) :
    partnerDataRequest g rsa sha256 svc r verifyReqSig uuid now partner
      consentId requestedFields signature consents customers dataRequests =
      (consents, dataRequests,
        .errorResp 403 ("Fields not allowed: " ++ String.intercalate ", "
          (requestedFields.filter
            (fun f => !(consent.allowedDataFields.contains f))))) := by
  simp only [partnerDataRequest, hfind]
  rw [if_neg (not_not_intro hp), if_neg hexp, if_pos hinv]

theorem partnerDataRequest_fieldsOk (g : GCMCipher) (rsa : RSACipher)
    (sha256 : String → String) (svc : EncryptionService) (r : SecureRand)
    (verifyReqSig : Nat → String → Bool) (uuid now : Nat)
    (partner : Partner) (consentId : String)
    (requestedFields : List String) (signature : Option String)
    (consents : List Consent) (customers : List Customer)
    (dataRequests : List DataRequest) (consent : Consent)
    (hp : partner.status = "active" ∧ partner.approvedContract = true ∧
      partner.contractData.isSome = true)
    (hfind : consents.find? (fun c => c.consentId == consentId &&
      c.partnerId == partner.partnerId &&
      c.status == ConsentStatus.active) = some consent)
    (hexp : ¬ now > consent.expiresAt)
    (hinv : requestedFields.filter
      (fun f => !(consent.allowedDataFields.contains f)) = []) :
    partnerDataRequest g rsa sha256 svc r verifyReqSig uuid now partner
      consentId requestedFields signature consents customers dataRequests =
      pdrAfterFields g rsa sha256 svc r verifyReqSig uuid now partner
        consentId requestedFields signature consents customers dataRequests
        consent := by
  simp only [partnerDataRequest, hfind]
  rw [if_neg (not_not_intro hp), if_neg hexp,
    if_neg (not_not_intro hinv)]

theorem mem_invalidFields_iff (rf allowed : List String) (f : String) :
    f ∈ rf.filter (fun x => !(allowed.contains x)) ↔
      (f ∈ rf ∧ f ∉ allowed) := by
  simp [List.mem_filter]

theorem invalidFields_eq_nil_iff (rf allowed : List String) :
    rf.filter (fun x => !(allowed.contains x)) = [] ↔
      ∀ f ∈ rf, f ∈ allowed := by
  constructor
  · intro h f hf
    by_contra hna
    have hmem : f ∈ rf.filter (fun x => !(allowed.contains x)) :=
      (mem_invalidFields_iff rf allowed f).mpr ⟨hf, hna⟩
    rw [h] at hmem
    cases hmem
  · intro h
    apply List.eq_nil_iff_forall_not_mem.mpr
    intro f hmem
    have hc := (mem_invalidFields_iff rf allowed f).mp hmem
    exact hc.2 (h f hc.1)

/-- C4: the allowed-fields authorization step — with an active, unexpired
consent in hand, `partnerDataRequest` fails with the fields-not-allowed
403 iff the requested fields are not a subset of the consent's
`allowedDataFields`; the failure message lists exactly the requested
fields that are not allowed (requested minus allowed), and the consent
store (in particular `allowedDataFields`) is never mutated by the check. -/
theorem C4_fields_not_allowed (g : GCMCipher) (rsa : RSACipher)
    (sha256 : String → String) (svc : EncryptionService) (r : SecureRand)
    (verifyReqSig : Nat → String → Bool) (uuid now : Nat)
    (partner : Partner) (consentId : String)
    (requestedFields : List String) (signature : Option String)
    (consents : List Consent) (customers : List Customer)
    (dataRequests : List DataRequest) (consent : Consent)
    (hp : partner.status = "active" ∧ partner.approvedContract = true ∧
      partner.contractData.isSome = true)
    (hfind : consents.find? (fun c => c.consentId == consentId &&
      c.partnerId == partner.partnerId &&
      c.status == ConsentStatus.active) = some consent)
    (hexp : ¬ now > consent.expiresAt) :
    ((¬ ∀ f ∈ requestedFields, f ∈ consent.allowedDataFields) →
      partnerDataRequest g rsa sha256 svc r verifyReqSig uuid now partner
        consentId requestedFields signature consents customers
        dataRequests =
        (consents, dataRequests,
          .errorResp 403 ("Fields not allowed: " ++
            String.intercalate ", " (requestedFields.filter
              (fun f => !(consent.allowedDataFields.contains f)))))) ∧
    ((∀ f ∈ requestedFields, f ∈ consent.allowedDataFields) →
      (∀ m, (partnerDataRequest g rsa sha256 svc r verifyReqSig uuid now
        partner consentId requestedFields signature consents customers
        dataRequests).2.2 ≠ .errorResp 403 ("Fields not allowed: " ++ m)) ∧
      (partnerDataRequest g rsa sha256 svc r verifyReqSig uuid now partner
        consentId requestedFields signature consents customers
        dataRequests).1 = consents) ∧
    (∀ f, f ∈ requestedFields.filter
        (fun f => !(consent.allowedDataFields.contains f)) ↔
      (f ∈ requestedFields ∧ f ∉ consent.allowedDataFields)) := by
  refine ⟨?_, ?_, mem_invalidFields_iff requestedFields
    consent.allowedDataFields⟩
  · intro hns
    have hinv : requestedFields.filter
        (fun f => !(consent.allowedDataFields.contains f)) ≠ [] := by
      intro hn
      exact hns ((invalidFields_eq_nil_iff _ _).mp hn)
    exact partnerDataRequest_fieldsErr g rsa sha256 svc r verifyReqSig uuid
      now partner consentId requestedFields signature consents customers
      dataRequests consent hp hfind hexp hinv
  · intro hs
    have hnil : requestedFields.filter
        (fun f => !(consent.allowedDataFields.contains f)) = [] :=
      (invalidFields_eq_nil_iff _ _).mpr hs
    rw [partnerDataRequest_fieldsOk g rsa sha256 svc r verifyReqSig uuid
      now partner consentId requestedFields signature consents customers
      dataRequests consent hp hfind hexp hnil]
    obtain ⟨h1, h2⟩ := pdrAfterFields_no_403 g rsa sha256 svc r
      verifyReqSig uuid now partner consentId requestedFields signature
      consents customers dataRequests consent
    exact ⟨fun m => h2 _, h1⟩

/-- C4 witness: with `allowedFields = [phone, email]`, requesting
`[phone, ssn]` fails listing exactly `ssn`, at concrete inputs. -/
theorem C4_fields_not_allowed_witness :
    partnerDataRequest toyGCM toyRSA toySha ⟨"k"⟩ ⟨"tk", "ti", "ok", "oi"⟩
      (fun _ _ => true) 1 50
      ⟨"P1", "active", true,
        some ⟨["phone", "email"], "mkt", 30, "lb", "ct", "cid", 1⟩, none,
        none⟩
      "c1" ["phone", "ssn"] none
      [⟨"c1", "cu1", "P1", ["phone", "email"], "mkt", 30, 3600000,
        ConsentStatus.active, 0, 0, 1000⟩] [] [] =
      ([⟨"c1", "cu1", "P1", ["phone", "email"], "mkt", 30, 3600000,
        ConsentStatus.active, 0, 0, 1000⟩], [],
        .errorResp 403 "Fields not allowed: ssn") := by
  have h := (C4_fields_not_allowed toyGCM toyRSA toySha ⟨"k"⟩
    ⟨"tk", "ti", "ok", "oi"⟩ (fun _ _ => true) 1 50
    ⟨"P1", "active", true,
      some ⟨["phone", "email"], "mkt", 30, "lb", "ct", "cid", 1⟩, none,
      none⟩
    "c1" ["phone", "ssn"] none
    [⟨"c1", "cu1", "P1", ["phone", "email"], "mkt", 30, 3600000,
      ConsentStatus.active, 0, 0, 1000⟩] [] []
    ⟨"c1", "cu1", "P1", ["phone", "email"], "mkt", 30, 3600000,
      ConsentStatus.active, 0, 0, 1000⟩
    ⟨rfl, rfl, rfl⟩ rfl (by decide)).1 (by decide)
  rw [h]
  rfl

theorem fields_msg_ne_expired (m : String) :
    "Fields not allowed: " ++ m ≠ "Consent expired" := by
  intro h
  have hl : ("Fields not allowed: " ++ m).length =
      ("Consent expired" : String).length := by rw [h]
  rw [String.length_append] at hl
  have h20 : ("Fields not allowed: " : String).length = 20 := rfl
  have h15 : ("Consent expired" : String).length = 15 := rfl
  omega

/-- C5 (counterexample): the expired-consent failure is NOT independent of
the stored status — a consent whose `expiresAt` is long past but whose
stored status is `revoked` is filtered out by the `status: 'active'` query,
so the request fails with the 404 "No active consent found", not with the
consent-expired 403 the claim requires for every stored status. -/
theorem C5_counterexample :
    (partnerDataRequest toyGCM toyRSA toySha ⟨"k"⟩ ⟨"tk", "ti", "ok", "oi"⟩
        (fun _ _ => true) 1 100
        ⟨"P1", "active", true,
          some ⟨["phone"], "mkt", 30, "lb", "ct", "cid", 1⟩, none, none⟩
        "c1" ["phone"] none
        [⟨"c1", "cu1", "P1", ["phone"], "mkt", 30, 3600000,
          ConsentStatus.revoked, 0, 0, 10⟩] [] []).2.2 =
      .errorResp 404 "No active consent found" ∧
    100 > 10 ∧
    (partnerDataRequest toyGCM toyRSA toySha ⟨"k"⟩ ⟨"tk", "ti", "ok", "oi"⟩
        (fun _ _ => true) 1 100
        ⟨"P1", "active", true,
          some ⟨["phone"], "mkt", 30, "lb", "ct", "cid", 1⟩, none, none⟩
        "c1" ["phone"] none
        [⟨"c1", "cu1", "P1", ["phone"], "mkt", 30, 3600000,
          ConsentStatus.revoked, 0, 0, 10⟩] [] []).2.2 ≠
      .errorResp 403 "Consent expired" := by
  refine ⟨rfl, by decide, ?_⟩
  intro h
  rw [(rfl : (partnerDataRequest toyGCM toyRSA toySha ⟨"k"⟩
      ⟨"tk", "ti", "ok", "oi"⟩ (fun _ _ => true) 1 100
      ⟨"P1", "active", true,
        some ⟨["phone"], "mkt", 30, "lb", "ct", "cid", 1⟩, none, none⟩
      "c1" ["phone"] none
      [⟨"c1", "cu1", "P1", ["phone"], "mkt", 30, 3600000,
        ConsentStatus.revoked, 0, 0, 10⟩] [] []).2.2 =
    PdrResponse.errorResp 404 "No active consent found")] at h
  injection h with h1
  exact absurd h1 (by decide)

/-- C5 (amended): with partner checks passed, `partnerDataRequest` fails
with the 403 "Consent expired" iff the consent is FOUND by the
`{consentId, partnerId, status: 'active'}` query and `now > expiresAt` —
and on that failure the consent's status is set to `expired` and persisted
before the error is returned.  A consent whose stored status is not
`active` never reaches the expiry check: the request fails with the 404
"No active consent found" instead, whatever its `expiresAt`. -/
theorem C5_consent_expiry (g : GCMCipher) (rsa : RSACipher)
    (sha256 : String → String) (svc : EncryptionService) (r : SecureRand)
    (verifyReqSig : Nat → String → Bool) (uuid now : Nat)
    (partner : Partner) (consentId : String)
    (requestedFields : List String) (signature : Option String)
    (consents : List Consent) (customers : List Customer)
    (dataRequests : List DataRequest)
    (hp : partner.status = "active" ∧ partner.approvedContract = true ∧
      partner.contractData.isSome = true) :
    (∀ consent, consents.find? (fun c => c.consentId == consentId &&
        c.partnerId == partner.partnerId &&
        c.status == ConsentStatus.active) = some consent →
      now > consent.expiresAt →
      partnerDataRequest g rsa sha256 svc r verifyReqSig uuid now partner
        consentId requestedFields signature consents customers
        dataRequests =
        (updateFirst (fun c => c.consentId == consent.consentId)
          (fun c => { c with status := .expired, updatedAt := now })
          consents,
         dataRequests, .errorResp 403 "Consent expired")) ∧
    (∀ consent, consents.find? (fun c => c.consentId == consentId &&
        c.partnerId == partner.partnerId &&
        c.status == ConsentStatus.active) = some consent →
      ¬ now > consent.expiresAt →
      (partnerDataRequest g rsa sha256 svc r verifyReqSig uuid now partner
        consentId requestedFields signature consents customers
        dataRequests).2.2 ≠ .errorResp 403 "Consent expired") ∧
    (consents.find? (fun c => c.consentId == consentId &&
        c.partnerId == partner.partnerId &&
        c.status == ConsentStatus.active) = none →
      partnerDataRequest g rsa sha256 svc r verifyReqSig uuid now partner
        consentId requestedFields signature consents customers
        dataRequests =
        (consents, dataRequests,
          .errorResp 404 "No active consent found")) := by
  refine ⟨?_, ?_, ?_⟩
  · intro consent hfind hgt
    simp only [partnerDataRequest, hfind]
    rw [if_neg (not_not_intro hp), if_pos hgt]
  · intro consent hfind hexp
    by_cases hnil : requestedFields.filter
        (fun f => !(consent.allowedDataFields.contains f)) = []
    · rw [partnerDataRequest_fieldsOk g rsa sha256 svc r verifyReqSig uuid
        now partner consentId requestedFields signature consents customers
        dataRequests consent hp hfind hexp hnil]
      exact (pdrAfterFields_no_403 g rsa sha256 svc r verifyReqSig uuid
        now partner consentId requestedFields signature consents customers
        dataRequests consent).2 _
    · rw [partnerDataRequest_fieldsErr g rsa sha256 svc r verifyReqSig uuid
        now partner consentId requestedFields signature consents customers
        dataRequests consent hp hfind hexp hnil]
      intro h
      injection h with _ h2
      exact fields_msg_ne_expired _ h2
  · intro hfind
    simp only [partnerDataRequest, hfind]
    rw [if_neg (not_not_intro hp)]

/-- C5 witness: an active consent past its expiry — the request fails with
the consent-expired 403 and the stored consent is flipped to `expired`
first, at concrete inputs. -/
theorem C5_consent_expiry_witness :
    partnerDataRequest toyGCM toyRSA toySha ⟨"k"⟩ ⟨"tk", "ti", "ok", "oi"⟩
      (fun _ _ => true) 1 100
      ⟨"P1", "active", true,
        some ⟨["phone"], "mkt", 30, "lb", "ct", "cid", 1⟩, none, none⟩
      "c1" ["phone"] none
      [⟨"c1", "cu1", "P1", ["phone"], "mkt", 30, 3600000,
        ConsentStatus.active, 0, 0, 10⟩] [] [] =
      ([⟨"c1", "cu1", "P1", ["phone"], "mkt", 30, 3600000,
        ConsentStatus.expired, 0, 100, 10⟩], [],
        .errorResp 403 "Consent expired") := by
  have h := (C5_consent_expiry toyGCM toyRSA toySha ⟨"k"⟩
    ⟨"tk", "ti", "ok", "oi"⟩ (fun _ _ => true) 1 100
    ⟨"P1", "active", true,
      some ⟨["phone"], "mkt", 30, "lb", "ct", "cid", 1⟩, none, none⟩
    "c1" ["phone"] none
    [⟨"c1", "cu1", "P1", ["phone"], "mkt", 30, 3600000,
      ConsentStatus.active, 0, 0, 10⟩] [] []
    ⟨rfl, rfl, rfl⟩).1
    ⟨"c1", "cu1", "P1", ["phone"], "mkt", 30, 3600000,
      ConsentStatus.active, 0, 0, 10⟩ rfl (by decide)
  rw [h]
  rfl

/-- C9: when none of the requested fields matches a stored customer field,
directly or via the encrypted-field name mapping, the response data is not
empty and not an error — the controller fabricates the placeholder values
(`testData`, name `Test Customer`, email `test@example.com`, phone
`+1234567890`), encrypts them for the partner's key, and sends them as if
they were customer data. -/
theorem C9_placeholder_data (g : GCMCipher) (rsa : RSACipher)
    (sha256 : String → String) (svc : EncryptionService) (r : SecureRand)
    (verifyReqSig : Nat → String → Bool) (uuid now : Nat)
    (partner : Partner) (consentId : String)
    (requestedFields : List String) (consents : List Consent)
    (customers : List Customer) (dataRequests : List DataRequest)
    (consent : Consent) (customer : Customer) (pk : Nat)
    (hp : partner.status = "active" ∧ partner.approvedContract = true ∧
      partner.contractData.isSome = true)
    (hfind : consents.find? (fun c => c.consentId == consentId &&
      c.partnerId == partner.partnerId &&
      c.status == ConsentStatus.active) = some consent)
    (hexp : ¬ now > consent.expiresAt)
    (hsub : ∀ f ∈ requestedFields, f ∈ consent.allowedDataFields)
    (hcust : customers.find? (fun cu => cu.id == consent.customerId) =
      some customer)
    (hnomatch : ∀ f ∈ requestedFields, lookupField customer f = none ∧
      ∀ mf, fieldMap f = some mf → lookupField customer mf = none)
    (hpk : partner.publicKey = some pk) :
    partnerDataRequest g rsa sha256 svc r verifyReqSig uuid now partner
      consentId requestedFields none consents customers dataRequests =
      (consents,
       dataRequests ++ [⟨uuid, partner.partnerId, consent.customerId,
         consentId, requestedFields, "approved", now⟩],
       .successEncrypted (pdrMessage partner)
         (encryptCustomerFieldsSecure g rsa sha256 r
           [("testData", "This is test data to demonstrate encryption"),
            ("name", "Test Customer"),
            ("email", "test@example.com"),
            ("phone", "+1234567890")] pk)) ∧
    responseDataFor customer requestedFields = testData := by
  have hnil : buildResponseData customer requestedFields = [] := by
    apply List.filterMap_eq_nil_iff.mpr
    intro f hf
    obtain ⟨h1, h2⟩ := hnomatch f hf
    cases hm : fieldMap f with
    | none => simp [h1, hm]
    | some mf => simp [h1, hm, h2 mf hm]
  have hrdf : responseDataFor customer requestedFields = testData := by
    simp [responseDataFor, hnil]
  refine ⟨?_, hrdf⟩
  rw [partnerDataRequest_fieldsOk g rsa sha256 svc r verifyReqSig uuid now
    partner consentId requestedFields none consents customers dataRequests
    consent hp hfind hexp ((invalidFields_eq_nil_iff _ _).mpr hsub)]
  have hsig : pdrSigFails verifyReqSig partner.publicKey none = false := by
    rw [hpk]
    rfl
  unfold pdrAfterFields
  rw [hsig]
  simp only [Bool.false_eq_true, if_false]
  simp only [pdrRespond, hcust, hpk, hrdf]
  rfl

/-- C9 witness: a customer record with no stored fields — the partner
receives the encrypted placeholder payload, at concrete inputs. -/
theorem C9_placeholder_data_witness :
    partnerDataRequest toyGCM toyRSA toySha ⟨"k"⟩ ⟨"tk", "ti", "ok", "oi"⟩
      (fun _ _ => true) 1 50
      ⟨"P1", "active", true,
        some ⟨["phone"], "mkt", 30, "lb", "ct", "cid", 1⟩, some 7, none⟩
      "c1" ["phone"] none
      [⟨"c1", "cu1", "P1", ["phone"], "mkt", 30, 3600000,
        ConsentStatus.active, 0, 0, 1000⟩]
      [⟨"cu1", []⟩] [] =
      ([⟨"c1", "cu1", "P1", ["phone"], "mkt", 30, 3600000,
        ConsentStatus.active, 0, 0, 1000⟩],
       [⟨1, "P1", "cu1", "c1", ["phone"], "approved", 50⟩],
       .successEncrypted "Data sent via API response only"
         (encryptCustomerFieldsSecure toyGCM toyRSA toySha
           ⟨"tk", "ti", "ok", "oi"⟩
           [("testData", "This is test data to demonstrate encryption"),
            ("name", "Test Customer"),
            ("email", "test@example.com"),
            ("phone", "+1234567890")] 7)) := by
  have h := (C9_placeholder_data toyGCM toyRSA toySha ⟨"k"⟩
    ⟨"tk", "ti", "ok", "oi"⟩ (fun _ _ => true) 1 50
    ⟨"P1", "active", true,
      some ⟨["phone"], "mkt", 30, "lb", "ct", "cid", 1⟩, some 7, none⟩
    "c1" ["phone"]
    [⟨"c1", "cu1", "P1", ["phone"], "mkt", 30, 3600000,
      ConsentStatus.active, 0, 0, 1000⟩]
    [⟨"cu1", []⟩] []
    ⟨"c1", "cu1", "P1", ["phone"], "mkt", 30, 3600000,
      ConsentStatus.active, 0, 0, 1000⟩
    ⟨"cu1", []⟩ 7
    ⟨rfl, rfl, rfl⟩ rfl (by decide) (by decide) rfl
    (by intro f hf; exact ⟨rfl, by intro mf hm; cases hf with
      | head => rw [(rfl : fieldMap "phone" = some "encryptedPhone")] at hm;
                injection hm with hmf; rw [← hmf]; rfl
      | tail _ h2 => cases h2⟩) rfl).1
  rw [h]
  rfl

end SecureShare
